import Mathlib

/-
Verification of the TestFlows-Stash memoization mechanism
(src/testflows/stash/stash.py) against its natural-language specification.

The stash store file is modelled by its parsed view: a list of
(name, encoded-string) entries in file order, together with flags for the
existence of the stash directory and of the store file itself.  The Python
module loader that reads the file back (SourceFileLoader + getattr) makes the
last assignment to a name visible, which is the lookupLast function below.
The textual rendering of the file (each entry written by stashed.__call__ as
"<name> = <repr of encoded value>" followed by a blank line) is modelled by
renderStore / pyRepr for the record-format claims.

The skip-on-hit mechanism (sys.settrace + StashValueFound in stashed.__skip__
and stashed.__enter__) unwinds the guarded block before its first statement
runs; runWith models a with-statement whose body calls capture once, where an
armed handle means the body is not executed.
-/

/-- A single quote character (Python uses it as the default string quote). -/
def sqC : Char := Char.ofNat 39

/-- The single quote as a string. -/
def sqStr : String := String.singleton sqC

/-- Escape backslashes and the given quote character, as Python repr does for
printable strings. -/
def pyEscape (quote : Char) (cs : List Char) : String :=
  cs.foldl (fun acc c =>
    if c = '\\' then acc ++ "\\\\"
    else if c = quote then acc ++ String.singleton '\\' ++ String.singleton quote
    else acc ++ String.singleton c) ""

/-- Model of Python repr for strings of printable characters: single quotes by
default, double quotes when the string contains a single quote but no double
quote.  This is the quoting applied by stashed.__call__ via
repr(self.encoder.dumps(value)). -/
def pyRepr (s : String) : String :=
  if s.data.contains sqC && !(s.data.contains '"') then
    "\"" ++ pyEscape '"' s.data ++ "\""
  else
    sqStr ++ pyEscape sqC s.data ++ sqStr

/-- Lookup of a name in the parsed store file: the Python module loader
executes the assignments in file order, so getattr sees the last one. -/
def lookupLast : List (String × String) → String → Option String
  | [], _ => none
  | (k, v) :: rest, nm =>
    match lookupLast rest nm with
    | some r => some r
    | none => if k = nm then some v else none

/-- Number of entries for a given name in the parsed store file. -/
def countName (nm : String) (es : List (String × String)) : Nat :=
  (es.filter (fun p => p.1 = nm)).length

/-- Textual content of the store file produced by the appends of
stashed.__call__: each entry is the name, an equals sign, the repr-quoted
encoded value, a newline and a blank line. -/
def renderStore (es : List (String × String)) : String :=
  es.foldl (fun acc p => acc ++ p.1 ++ " = " ++ pyRepr p.2 ++ "\n\n") ""

/-- Split a string into lines at newline characters. -/
def splitLinesAux : List Char → List Char → List String
  | [], acc => [String.mk acc.reverse]
  | c :: rest, acc =>
    if c = '\n' then String.mk acc.reverse :: splitLinesAux rest []
    else splitLinesAux rest (c :: acc)

/-- Lines of a string (the final line has no trailing newline). -/
def linesOf (s : String) : List String := splitLinesAux s.data []

/-- Pluggable encoder capability: dumps may fail (a raised exception in
Python, e.g. an unpicklable value), loads decodes the stored string. -/
structure Encoder (V : Type) where
  dumps : V → Option String
  loads : String → V

/-- Parse an unsigned decimal numeral. -/
def digitsAux : List Char → Nat → Option Nat
  | [], acc => some acc
  | c :: rest, acc =>
    if c.isDigit then digitsAux rest (acc * 10 + (c.toNat - 48)) else none

/-- Decoding of an integer JSON text, as json.loads does on the output of
json.dumps for an int; modelled on integer-literal inputs (other inputs are
out of the domain exercised here and map to 0). -/
def jsonIntLoads (s : String) : Int :=
  match s.data with
  | [] => 0
  | c :: rest =>
    if c = '-' then -(Int.ofNat ((digitsAux rest 0).getD 0))
    else Int.ofNat ((digitsAux (c :: rest) 0).getD 0)

/-- The default json encoder (stashed.encoder.json) restricted to integers:
json.dumps of an int is its decimal text and never fails. -/
def jsonInt : Encoder Int :=
  { dumps := fun n => some (toString n), loads := jsonIntLoads }

/-- Parsed state of one stash store file plus its directory, the durable
state read and written by _check_stash and stashed.__call__. -/
structure Store where
  dirExists : Bool
  fileExists : Bool
  entries : List (String × String)
deriving DecidableEq

/-- In-memory state of one stashed handle: the fields set by
stashed.__init__ and mutated by __enter__, __call__ and __exit__.
value? models the presence of the _value attribute (hasattr); armed models
sys.settrace being set to __skip__; lockHeld models holding the per-key
mutex from the registry. -/
structure StashState (V : Type) where
  name : String
  isUsed : Bool
  wasEmpty : Bool
  isOpen : Bool
  value? : Option V
  armed : Bool
  lockHeld : Bool
deriving DecidableEq

/-- State of a freshly constructed handle (stashed.__init__): closed, empty,
no value, with the already-sanitized name. -/
def initStash {V : Type} (nm : String) (useStash : Bool) : StashState V :=
  ⟨nm, useStash, true, false, none, false, false⟩

/-- The value property (stashed.value): returns the value when the _value
attribute is set, otherwise raises ValueError, modelled as none. -/
def valueAcc {V : Type} (s : StashState V) : Option V := s.value?

/-- stashed._check_stash: create the stash directory if absent; if the store
file exists and has an entry for the name, set the decoded value and clear
was_empty. -/
def checkStash {V : Type} (enc : Encoder V) (s : StashState V) (st : Store) :
    StashState V × Store :=
  let st' := { st with dirExists := true }
  if st.fileExists then
    match lookupLast st.entries s.name with
    | some b => ({ s with value? := some (enc.loads b), wasEmpty := false }, st')
    | none => (s, st')
  else (s, st')

/-- stashed.__enter__: mark open, acquire the mutex, check the stash, and arm
the skip mechanism when a value is present. -/
def enterStash {V : Type} (enc : Encoder V) (s : StashState V) (st : Store) :
    StashState V × Store :=
  let s1 := { s with isOpen := true, lockHeld := true }
  let p := checkStash enc s1 st
  (if p.1.value?.isSome then { p.1 with armed := true } else p.1, p.2)

/-- Errors raised by the capture call stashed.__call__. -/
inductive CErr where
  | notOpen
  | alreadySet
  | cantEncode
  | outputFailed
deriving DecidableEq

/-- Result of a capture call: the mutated handle and store, what was sent to
the output sink, and the exception that escaped, if any. -/
structure CallRes (V : Type) where
  state : StashState V
  store : Store
  sent : Option String
  error : Option CErr
deriving DecidableEq

/-- stashed.__call__ (capture).  The output argument models the optional
output sink of the constructor: none when absent, some ok when present with
ok telling whether the call to it succeeds.  Order follows the source: the
open check, the already-set check, setting _value in memory, the is_used
early return, opening the file for append (which creates it), encoding,
calling the output sink, and finally the append of the entry. -/
def callStash {V : Type} (enc : Encoder V) (output : Option Bool)
    (s : StashState V) (st : Store) (v : V) : CallRes V :=
  if !s.isOpen then ⟨s, st, none, some .notOpen⟩
  else if s.value?.isSome then ⟨s, st, none, some .alreadySet⟩
  else
    let s1 := { s with value? := some v }
    if !s1.isUsed then ⟨s1, st, none, none⟩
    else
      let st1 := { st with fileExists := true }
      match enc.dumps v with
      | none => ⟨s1, st1, none, some .cantEncode⟩
      | some e =>
        let r := pyRepr e
        match output with
        | some false => ⟨s1, st1, some r, some .outputFailed⟩
        | some true =>
          ⟨s1, { st1 with entries := st1.entries ++ [(s.name, e)] }, some r, none⟩
        | none =>
          ⟨s1, { st1 with entries := st1.entries ++ [(s.name, e)] }, none, none⟩

/-- Exceptions reaching stashed.__exit__: the internal skip signal
StashValueFound, or any other exception from the guarded block. -/
inductive PyExc where
  | stashValueFound
  | other
deriving DecidableEq

/-- stashed.__exit__: release the mutex and mark closed unconditionally; the
returned flag tells whether the exception is suppressed, which happens
exactly for StashValueFound. -/
def exitStash {V : Type} (s : StashState V) (exc : Option PyExc) :
    StashState V × Bool :=
  ({ s with lockHeld := false, isOpen := false },
   match exc with
   | some .stashValueFound => true
   | _ => false)

/-- Outcome of running a whole with-statement whose body calls capture once
with the given value: final handle state, final store, whether the guarded
body ran, what was sent to the output sink, and the error escaping the
with-statement, if any. -/
structure RunRes (V : Type) where
  state : StashState V
  store : Store
  bodyRan : Bool
  sent : Option String
  err : Option CErr
deriving DecidableEq

/-- Run a with-statement over a stashed handle whose guarded body calls
capture once with value v.  When the handle opens armed, sys.settrace makes
the first traced event of the body raise StashValueFound, so the body is not
executed and __exit__ swallows the signal; otherwise the body runs, captures,
and any capture error propagates out after __exit__ releases the lock. -/
def runWith {V : Type} (enc : Encoder V) (output : Option Bool)
    (s0 : StashState V) (st0 : Store) (v : V) : RunRes V :=
  let p := enterStash enc s0 st0
  if p.1.armed then
    ⟨(exitStash p.1 (some .stashValueFound)).1, p.2, false, none, none⟩
  else
    let r := callStash enc output p.1 p.2 v
    match r.error with
    | none => ⟨(exitStash r.state none).1, r.store, true, r.sent, none⟩
    | some e => ⟨(exitStash r.state (some .other)).1, r.store, true, r.sent, some e⟩

/-- An encoder whose dumps always fails, standing for an unencodable value
(e.g. json.dumps on a non-serializable object). -/
def failEnc : Encoder Int := ⟨fun _ => none, fun _ => 0⟩

/-- Errors raised by FilePath.__call__. -/
inductive FErr where
  | notOpen
  | alreadySet
  | destExists
  | srcMissing
deriving DecidableEq

/-- In-memory state of a FilePath handle: name, destination path inside the
stash directory, and the lifecycle fields shared with stashed. -/
structure FileState where
  name : String
  filename : String
  isOpen : Bool
  isUsed : Bool
  wasEmpty : Bool
  value? : Option String
deriving DecidableEq

/-- File-system fragment relevant to FilePath: paths mapped to contents,
newest write first. -/
def fsGet : List (String × String) → String → Option String
  | [], _ => none
  | (p, d) :: rest, q => if p = q then some d else fsGet rest q

/-- Write a file: the new binding shadows older ones. -/
def fsSet (fs : List (String × String)) (p d : String) : List (String × String) :=
  (p, d) :: fs

/-- os.path.exists. -/
def fsExists (fs : List (String × String)) (p : String) : Bool := (fsGet fs p).isSome

/-- FilePath.__call__: the open and already-set checks, the is_used bypass,
then: when the source path differs from the destination, an existing
destination is a fatal FileExistsError before anything is written; otherwise
the destination is opened for writing (created, truncated) and the source is
stream-copied into it — if opening the source then fails, the destination is
left behind empty.  When the source equals the destination no copy happens.
In the non-error paths _value becomes the destination path. -/
def fpCall (s : FileState) (fs : List (String × String)) (src : String) :
    FileState × List (String × String) × Option FErr :=
  if !s.isOpen then (s, fs, some .notOpen)
  else if s.value?.isSome then (s, fs, some .alreadySet)
  else if !s.isUsed then ({ s with value? := some src }, fs, none)
  else if src ≠ s.filename then
    if fsExists fs s.filename then (s, fs, some .destExists)
    else
      match fsGet fs src with
      | some data => ({ s with value? := some s.filename }, fsSet fs s.filename data, none)
      | none => (s, fsSet fs s.filename "", some .srcMissing)
  else ({ s with value? := some s.filename }, fs, none)

/-- First run of the concrete scenario of the specification: fresh store,
default json encoder, name count, captured value 42. -/
def countScenario1 : RunRes Int :=
  runWith jsonInt none (initStash "count" true) ⟨false, false, []⟩ 42

/-- Second run of the concrete scenario: reopening count on the store left by
the first run (the guarded block would capture 99 if it ran). -/
def countScenario2 : RunRes Int :=
  runWith jsonInt none (initStash "count" true) countScenario1.store 99

/-
Concurrency model for the per-key serialization claim.  N threads each run a
with-stashed block for the same name against a shared store, all using the
per-key mutex handed out by the registry for that cache key.  Each thread
takes three atomic steps, following stashed.__enter__, stashed.__call__ and
stashed.__exit__:
  acquire — enabled when the mutex is free: take it and run _check_stash
            against the current store, recording hit or miss;
  capture — a thread that opened on a miss appends its entry to the store;
  release — a thread that captured, or that opened on a hit (its guarded
            block skipped by the armed trace hook), releases the mutex in
            __exit__ and is done.
vals t is the encoded value thread t would append (encoding assumed to
succeed, as in the spec scenario of concurrent first-writers).
-/

/-- Phase of one thread in the concurrent model. -/
inductive Phase where
  | start
  | opened
  | captured
  | done
deriving DecidableEq

/-- Per-thread record: phase, whether the thread opened on a miss, and the
encoded value it found in the store when it opened on a hit. -/
structure TSt where
  phase : Phase
  missed : Bool
  seen : Option String
deriving DecidableEq

/-- Global state of the concurrent system: the per-key mutex (holder, if
any), the parsed store entries, and the threads. -/
structure CSys (n : Nat) where
  lock : Option (Fin n)
  entries : List (String × String)
  thr : Fin n → TSt

/-- Update one thread. -/
def updThr {n : Nat} (f : Fin n → TSt) (t : Fin n) (v : TSt) : Fin n → TSt :=
  fun u => if u = t then v else f u

/-- Thread state right after _check_stash inside __enter__: hit when the name
is in the store (value recorded, skip armed), miss otherwise. -/
def openThread (es : List (String × String)) (nm : String) : TSt :=
  match lookupLast es nm with
  | some b => ⟨.opened, false, some b⟩
  | none => ⟨.opened, true, none⟩

/-- Interleaving semantics of n threads running the stash protocol for one
shared cache key. -/
inductive CStep (nm : String) {n : Nat} (vals : Fin n → String) :
    CSys n → CSys n → Prop where
  | acquire (t : Fin n) (s : CSys n)
      (h1 : s.lock = none) (h2 : (s.thr t).phase = .start) :
      CStep nm vals s
        ⟨some t, s.entries, updThr s.thr t (openThread s.entries nm)⟩
  | capture (t : Fin n) (s : CSys n)
      (h1 : (s.thr t).phase = .opened) (h2 : (s.thr t).missed = true) :
      CStep nm vals s
        ⟨s.lock, s.entries ++ [(nm, vals t)],
         updThr s.thr t ⟨.captured, true, (s.thr t).seen⟩⟩
  | release (t : Fin n) (s : CSys n)
      (h1 : s.lock = some t)
      (h2 : (s.thr t).phase = .captured ∨
            ((s.thr t).phase = .opened ∧ (s.thr t).missed = false)) :
      CStep nm vals s
        ⟨none, s.entries, updThr s.thr t ⟨.done, (s.thr t).missed, (s.thr t).seen⟩⟩

/-- Initial system: mutex free, given store, all threads before open. -/
def initSys (n : Nat) (st0 : List (String × String)) : CSys n :=
  ⟨none, st0, fun _ => ⟨.start, false, none⟩⟩

/-- Reachability from the initial system. -/
def CReach (nm : String) {n : Nat} (vals : Fin n → String)
    (st0 : List (String × String)) : CSys n → Prop :=
  Relation.ReflTransGen (CStep nm vals) (initSys n st0)

/-- Mutual-exclusion invariant: any thread inside its with-block (opened or
capturing) is the mutex holder. -/
def lockInv {n : Nat} (s : CSys n) : Prop :=
  ∀ t, ((s.thr t).phase = .opened ∨ (s.thr t).phase = .captured) → s.lock = some t

/-- Content invariant for a fresh name: either nothing has happened, or one
thread opened on the miss and holds the key with the store still empty for
the name, or exactly one winner has appended its entry and every other thread
either has not opened yet or opened on a hit seeing the winner's value. -/
def contentInv (nm : String) {n : Nat} (vals : Fin n → String) (s : CSys n) : Prop :=
  (lookupLast s.entries nm = none ∧ countName nm s.entries = 0 ∧
    ∀ t, s.thr t = ⟨.start, false, none⟩) ∨
  (lookupLast s.entries nm = none ∧ countName nm s.entries = 0 ∧
    ∃ t0, s.thr t0 = ⟨.opened, true, none⟩ ∧
      ∀ u, u ≠ t0 → s.thr u = ⟨.start, false, none⟩) ∨
  (∃ t0, (s.thr t0).missed = true ∧
    ((s.thr t0).phase = .captured ∨ (s.thr t0).phase = .done) ∧
    lookupLast s.entries nm = some (vals t0) ∧ countName nm s.entries = 1 ∧
    ∀ u, u ≠ t0 → (s.thr u).missed = false ∧ (s.thr u).phase ≠ .captured ∧
      ((s.thr u).phase = .opened ∨ (s.thr u).phase = .done →
        (s.thr u).seen = some (vals t0)))

/-- Values of the two threads in the concrete two-thread run. -/
def w3vals : Fin 2 → String := fun t => if t = 0 then "va" else "vb"

/-- Threads of the two-thread trace, before any step. -/
def w3T0 : Fin 2 → TSt := fun _ => ⟨.start, false, none⟩

/-- After thread 0 acquires on the empty store (miss). -/
def w3T1 : Fin 2 → TSt := updThr w3T0 0 (openThread [] "k3")

/-- After thread 0 captures. -/
def w3T2 : Fin 2 → TSt := updThr w3T1 0 ⟨.captured, true, (w3T1 0).seen⟩

/-- After thread 0 releases. -/
def w3T3 : Fin 2 → TSt := updThr w3T2 0 ⟨.done, (w3T2 0).missed, (w3T2 0).seen⟩

/-- Store contents after the capture of thread 0. -/
def w3E : List (String × String) := [("k3", w3vals 0)]

/-- After thread 1 acquires on the updated store (hit). -/
def w3T4 : Fin 2 → TSt := updThr w3T3 1 (openThread w3E "k3")

/-- After thread 1 releases. -/
def w3T5 : Fin 2 → TSt := updThr w3T4 1 ⟨.done, (w3T4 1).missed, (w3T4 1).seen⟩

/-- Final state of the two-thread trace. -/
def w3Final : CSys 2 := ⟨none, w3E, w3T5⟩

/-
Theorems.  First the unfolding lemmas shared by the claim proofs.
-/

/-- The entry appended last for a name is the one the module loader exposes,
whatever was in the file before. -/
theorem lookupLast_append_self (l : List (String × String)) (k x : String) :
    lookupLast (l ++ [(k, x)]) k = some x := by
  induction l with
  | nil => simp [lookupLast]
  | cons hd tl ih =>
    obtain ⟨k0, v0⟩ := hd
    simp [lookupLast, ih]

/-- A name absent from the parsed view has no entries at all. -/
theorem countName_eq_zero_of_lookup_none (l : List (String × String)) (nm : String)
    (h : lookupLast l nm = none) : countName nm l = 0 := by
  induction l with
  | nil => simp [countName]
  | cons hd tl ih =>
    obtain ⟨k0, v0⟩ := hd
    simp only [lookupLast] at h
    cases hr : lookupLast tl nm with
    | some r => rw [hr] at h; exact absurd h (by simp)
    | none =>
      rw [hr] at h
      simp only [countName, List.filter] at ih ⊢
      by_cases hk : k0 = nm
      · simp [hk] at h
      · simpa [hk] using ih hr

/-- Appending an entry for a name adds exactly one to its count. -/
theorem countName_append (l : List (String × String)) (nm x : String) :
    countName nm (l ++ [(nm, x)]) = countName nm l + 1 := by
  simp [countName, List.filter_append]

/-- Opening a handle when the store misses the name: the handle is open and
holds the key, nothing else changes, the stash directory now exists. -/
theorem enterStash_miss {V : Type} (enc : Encoder V) (s0 : StashState V) (st : Store)
    (hv : s0.value? = none)
    (h : st.fileExists = false ∨ lookupLast st.entries s0.name = none) :
    enterStash enc s0 st =
      (⟨s0.name, s0.isUsed, s0.wasEmpty, true, s0.value?, s0.armed, true⟩,
       ⟨true, st.fileExists, st.entries⟩) := by
  rcases h with h | h
  · simp [enterStash, checkStash, h, hv]
  · cases hf : st.fileExists
    · simp [enterStash, checkStash, hf, hv]
    · simp [enterStash, checkStash, hf, h, hv]

/-- Opening a handle when the store hits the name: the decoded value is
exposed, was_empty is cleared and the skip mechanism is armed. -/
theorem enterStash_hit {V : Type} (enc : Encoder V) (s0 : StashState V) (st : Store)
    (b : String) (hf : st.fileExists = true)
    (hl : lookupLast st.entries s0.name = some b) :
    enterStash enc s0 st =
      (⟨s0.name, s0.isUsed, false, true, some (enc.loads b), true, true⟩,
       ⟨true, st.fileExists, st.entries⟩) := by
  simp [enterStash, checkStash, hf, hl]

/-- Successful capture on an open miss handle with a working sink (or none):
the value is recorded in memory, the entry is appended, and the repr-quoted
encoding is forwarded when a sink is present. -/
theorem callStash_ok {V : Type} (enc : Encoder V) (output : Option Bool)
    (s : StashState V) (st : Store) (v : V) (e : String)
    (ho : s.isOpen = true) (hv : s.value? = none) (hu : s.isUsed = true)
    (he : enc.dumps v = some e) (hout : output ≠ some false) :
    callStash enc output s st v =
      ⟨⟨s.name, s.isUsed, s.wasEmpty, s.isOpen, some v, s.armed, s.lockHeld⟩,
       ⟨st.dirExists, true, st.entries ++ [(s.name, e)]⟩,
       if output.isSome then some (pyRepr e) else none, none⟩ := by
  match output with
  | none => simp [callStash, ho, hv, hu, he]
  | some true => simp [callStash, ho, hv, hu, he]
  | some false => exact absurd rfl hout

/-- Claim C1: a handle opened for a name that already has an entry in its
store file opens in the hit state — the skip mechanism is armed, the guarded
block is not run (its capture call never executes), the value equals the
stored entry decoded by the encoder, and was_empty is false. -/
theorem stash_hit_skips_block {V : Type} (enc : Encoder V) (output : Option Bool)
    (nm : String) (useStash : Bool) (st : Store) (b : String) (v : V)
    (hfile : st.fileExists = true) (hlk : lookupLast st.entries nm = some b) :
    (enterStash enc (initStash nm useStash) st).1.armed = true ∧
    (runWith enc output (initStash (V := V) nm useStash) st v).bodyRan = false ∧
    valueAcc (runWith enc output (initStash nm useStash) st v).state =
      some (enc.loads b) ∧
    (runWith enc output (initStash nm useStash) st v).state.wasEmpty = false ∧
    (runWith enc output (initStash nm useStash) st v).err = none := by
  have hent := enterStash_hit enc
    (⟨nm, useStash, true, false, none, false, false⟩ : StashState V) st b hfile
    (by simpa using hlk)
  refine ⟨?_, ?_, ?_, ?_, ?_⟩ <;>
    simp [runWith, initStash, hent, exitStash, valueAcc]

/-- Claim C1 witness: concrete hit run with the json encoder. -/
theorem stash_hit_skips_block_witness :
    ((⟨true, true, [("k", "42")]⟩ : Store).fileExists = true ∧
     lookupLast (⟨true, true, [("k", "42")]⟩ : Store).entries "k" = some "42") ∧
    ((enterStash jsonInt (initStash "k" true) ⟨true, true, [("k", "42")]⟩).1.armed = true ∧
     (runWith jsonInt none (initStash (V := Int) "k" true) ⟨true, true, [("k", "42")]⟩ 7).bodyRan = false ∧
     valueAcc (runWith jsonInt none (initStash "k" true) ⟨true, true, [("k", "42")]⟩ 7).state =
       some (jsonInt.loads "42") ∧
     (runWith jsonInt none (initStash "k" true) ⟨true, true, [("k", "42")]⟩ 7).state.wasEmpty = false ∧
     (runWith jsonInt none (initStash "k" true) ⟨true, true, [("k", "42")]⟩ 7).err = none) :=
  ⟨⟨by decide, by decide⟩,
   stash_hit_skips_block jsonInt none "k" true ⟨true, true, [("k", "42")]⟩ "42" 7
     (by decide) (by decide)⟩

/-- Claim C2: capturing an encodable value under a fresh name (was_empty
true on the first handle) and closing makes every handle subsequently opened
for that name and store see was_empty false and a value equal to
decode(encode(v)), with its guarded block skipped. -/
theorem stash_roundtrip_miss_then_hit {V : Type} (enc : Encoder V)
    (output : Option Bool) (nm : String) (st0 : Store) (v : V) (e : String)
    (hfresh : st0.fileExists = false ∨ lookupLast st0.entries nm = none)
    (henc : enc.dumps v = some e) (hout : output ≠ some false) :
    (runWith enc output (initStash nm true) st0 v).state.wasEmpty = true ∧
    (runWith enc output (initStash nm true) st0 v).bodyRan = true ∧
    (runWith enc output (initStash nm true) st0 v).err = none ∧
    ∀ (useStash2 : Bool) (output2 : Option Bool) (v2 : V),
      (runWith enc output2 (initStash nm useStash2)
          (runWith enc output (initStash nm true) st0 v).store v2).state.wasEmpty
        = false ∧
      valueAcc (runWith enc output2 (initStash nm useStash2)
          (runWith enc output (initStash nm true) st0 v).store v2).state
        = some (enc.loads e) ∧
      (runWith enc output2 (initStash nm useStash2)
          (runWith enc output (initStash nm true) st0 v).store v2).bodyRan
        = false := by
  have hent := enterStash_miss enc
    (⟨nm, true, true, false, none, false, false⟩ : StashState V) st0 rfl
    (by simpa using hfresh)
  have hcall := callStash_ok enc output
    (⟨nm, true, true, true, none, false, true⟩ : StashState V)
    ⟨true, st0.fileExists, st0.entries⟩ v e rfl rfl rfl henc hout
  have hrun1 : runWith enc output (initStash nm true) st0 v =
      ⟨⟨nm, true, true, false, some v, false, false⟩,
       ⟨true, true, st0.entries ++ [(nm, e)]⟩,
       true, if output.isSome then some (pyRepr e) else none, none⟩ := by
    simp [runWith, initStash, hent, hcall, exitStash]
  refine ⟨by simp [hrun1], by simp [hrun1], by simp [hrun1], ?_⟩
  intro useStash2 output2 v2
  have hent2 := enterStash_hit enc
    (⟨nm, useStash2, true, false, none, false, false⟩ : StashState V)
    (⟨true, true, st0.entries ++ [(nm, e)]⟩ : Store) e rfl
    (by simpa using lookupLast_append_self st0.entries nm e)
  rw [hrun1]
  refine ⟨?_, ?_, ?_⟩ <;> simp [runWith, initStash, hent2, exitStash, valueAcc]

/-- Claim C2 witness: concrete miss-then-hit run with the json encoder. -/
theorem stash_roundtrip_miss_then_hit_witness :
    (((⟨false, false, []⟩ : Store).fileExists = false ∨
      lookupLast (⟨false, false, []⟩ : Store).entries "w2" = none) ∧
     jsonInt.dumps 5 = some "5" ∧ (none : Option Bool) ≠ some false) ∧
    ((runWith jsonInt none (initStash "w2" true) ⟨false, false, []⟩ 5).state.wasEmpty = true ∧
     (runWith jsonInt none (initStash "w2" true) ⟨false, false, []⟩ 5).bodyRan = true ∧
     (runWith jsonInt none (initStash "w2" true) ⟨false, false, []⟩ 5).err = none ∧
     ∀ (useStash2 : Bool) (output2 : Option Bool) (v2 : Int),
      (runWith jsonInt output2 (initStash "w2" useStash2)
          (runWith jsonInt none (initStash "w2" true) ⟨false, false, []⟩ 5).store v2).state.wasEmpty
        = false ∧
      valueAcc (runWith jsonInt output2 (initStash "w2" useStash2)
          (runWith jsonInt none (initStash "w2" true) ⟨false, false, []⟩ 5).store v2).state
        = some (jsonInt.loads "5") ∧
      (runWith jsonInt output2 (initStash "w2" useStash2)
          (runWith jsonInt none (initStash "w2" true) ⟨false, false, []⟩ 5).store v2).bodyRan
        = false) :=
  ⟨⟨by decide, by decide, by decide⟩,
   stash_roundtrip_miss_then_hit jsonInt none "w2" ⟨false, false, []⟩ 5 "5"
     (by decide) (by decide) (by decide)⟩

/-- Claim C4: capture raises NotOpen when the handle is not open, and
AlreadySet when a value was already set (by a prior capture or by a hit at
open); in both cases the handle and store are unchanged, so a previously
captured value survives the rejected call. -/
theorem stash_capture_rejects {V : Type} (enc : Encoder V) (output : Option Bool)
    (s : StashState V) (st : Store) (v : V)
    (h : s.isOpen = false ∨ s.value?.isSome = true) :
    callStash enc output s st v =
      ⟨s, st, none, some (if s.isOpen then CErr.alreadySet else CErr.notOpen)⟩ := by
  rcases h with h | h
  · simp [callStash, h]
  · cases ho : s.isOpen
    · simp [callStash, ho]
    · simp [callStash, ho, h]

/-- Claim C4 witness: a second capture on a handle that already holds 5 is
rejected with AlreadySet and leaves the state untouched. -/
theorem stash_capture_rejects_witness :
    ((⟨"k4", true, true, true, some 5, false, true⟩ : StashState Int).isOpen = false ∨
     (⟨"k4", true, true, true, some 5, false, true⟩ : StashState Int).value?.isSome = true) ∧
    callStash jsonInt none (⟨"k4", true, true, true, some 5, false, true⟩ : StashState Int)
        ⟨true, true, []⟩ 9 =
      ⟨⟨"k4", true, true, true, some 5, false, true⟩, ⟨true, true, []⟩, none,
       some (if (⟨"k4", true, true, true, some 5, false, true⟩ : StashState Int).isOpen
             then CErr.alreadySet else CErr.notOpen)⟩ :=
  ⟨by decide,
   stash_capture_rejects jsonInt none ⟨"k4", true, true, true, some 5, false, true⟩
     ⟨true, true, []⟩ 9 (by decide)⟩

/-- Claim C5: when the encoder cannot encode the value on an open miss
handle, capture raises, the parsed store contents are unchanged (no entry is
appended), and the value stays available in memory through the value
accessor. -/
theorem stash_encode_failure_keeps_value {V : Type} (enc : Encoder V)
    (output : Option Bool) (s : StashState V) (st : Store) (v : V)
    (ho : s.isOpen = true) (hv : s.value? = none) (hu : s.isUsed = true)
    (he : enc.dumps v = none) :
    (callStash enc output s st v).error = some CErr.cantEncode ∧
    (callStash enc output s st v).store.entries = st.entries ∧
    valueAcc (callStash enc output s st v).state = some v := by
  have h : callStash enc output s st v =
      ⟨{ s with value? := some v }, { st with fileExists := true }, none,
       some CErr.cantEncode⟩ := by
    simp [callStash, ho, hv, hu, he]
  exact ⟨by simp [h], by simp [h], by simp [h, valueAcc]⟩

/-- Claim C5 witness: failing encoder on a concrete open handle. -/
theorem stash_encode_failure_keeps_value_witness :
    ((⟨"k5", true, true, true, none, false, true⟩ : StashState Int).isOpen = true ∧
     (⟨"k5", true, true, true, none, false, true⟩ : StashState Int).value? = none ∧
     (⟨"k5", true, true, true, none, false, true⟩ : StashState Int).isUsed = true ∧
     failEnc.dumps 9 = none) ∧
    ((callStash failEnc none (⟨"k5", true, true, true, none, false, true⟩ : StashState Int)
        ⟨true, false, [("a", "b")]⟩ 9).error = some CErr.cantEncode ∧
     (callStash failEnc none (⟨"k5", true, true, true, none, false, true⟩ : StashState Int)
        ⟨true, false, [("a", "b")]⟩ 9).store.entries =
       (⟨true, false, [("a", "b")]⟩ : Store).entries ∧
     valueAcc (callStash failEnc none (⟨"k5", true, true, true, none, false, true⟩ : StashState Int)
        ⟨true, false, [("a", "b")]⟩ 9).state = some 9) :=
  ⟨⟨by decide, by decide, by decide, by decide⟩,
   stash_encode_failure_keeps_value failEnc none
     ⟨"k5", true, true, true, none, false, true⟩ ⟨true, false, [("a", "b")]⟩ 9
     (by decide) (by decide) (by decide) (by decide)⟩

/-- Claim C6: however a with-block ends, __exit__ releases the key mutex and
closes the handle; the internal skip signal is the one exception that is
swallowed, every other exception (and normal completion) is not suppressed,
and the captured value survives closing. -/
theorem stash_exit_releases_unconditionally {V : Type} (s : StashState V)
    (exc : Option PyExc) :
    (exitStash s exc).1.lockHeld = false ∧
    (exitStash s exc).1.isOpen = false ∧
    valueAcc (exitStash s exc).1 = valueAcc s ∧
    ((exitStash s exc).2 = true ↔ exc = some PyExc.stashValueFound) := by
  refine ⟨rfl, rfl, rfl, ?_⟩
  cases exc with
  | none => simp [exitStash]
  | some e => cases e <;> simp [exitStash]

/-- Claim C6 witness: closing an open handle on a non-skip exception releases
the lock without suppressing. -/
theorem stash_exit_releases_unconditionally_witness :
    (exitStash (⟨"k6", true, true, true, some 1, false, true⟩ : StashState Int)
        (some PyExc.other)).1.lockHeld = false ∧
    (exitStash (⟨"k6", true, true, true, some 1, false, true⟩ : StashState Int)
        (some PyExc.other)).1.isOpen = false ∧
    valueAcc (exitStash (⟨"k6", true, true, true, some 1, false, true⟩ : StashState Int)
        (some PyExc.other)).1 =
      valueAcc (⟨"k6", true, true, true, some 1, false, true⟩ : StashState Int) ∧
    ((exitStash (⟨"k6", true, true, true, some 1, false, true⟩ : StashState Int)
        (some PyExc.other)).2 = true ↔ some PyExc.other = some PyExc.stashValueFound) :=
  stash_exit_releases_unconditionally ⟨"k6", true, true, true, some 1, false, true⟩
    (some PyExc.other)

/-- Claim C7 counterexample: on an open miss handle with an output sink that
raises, capture fails with an error and the entry is NOT appended to the
store file, refuting that a sink failure is non-fatal and does not prevent
the durable append. -/
theorem stash_output_failure_cex :
    (callStash jsonInt (some false)
        (⟨"k7", true, true, true, none, false, true⟩ : StashState Int)
        ⟨true, true, []⟩ 5).error = some CErr.outputFailed ∧
    (callStash jsonInt (some false)
        (⟨"k7", true, true, true, none, false, true⟩ : StashState Int)
        ⟨true, true, []⟩ 5).store.entries = [] ∧
    (callStash jsonInt (some false)
        (⟨"k7", true, true, true, none, false, true⟩ : StashState Int)
        ⟨true, true, []⟩ 5).sent = some (pyRepr "5") := by decide

/-- Claim C7 as amended: capture forwards the repr-quoted encoding to the
sink, but a failure raised by the sink propagates out of capture and prevents
the entry from being appended; only when the sink succeeds is the entry
appended. -/
theorem stash_output_sink_behavior {V : Type} (enc : Encoder V) (ok : Bool)
    (s : StashState V) (st : Store) (v : V) (e : String)
    (ho : s.isOpen = true) (hv : s.value? = none) (hu : s.isUsed = true)
    (he : enc.dumps v = some e) :
    (callStash enc (some ok) s st v).sent = some (pyRepr e) ∧
    (ok = false → (callStash enc (some ok) s st v).error = some CErr.outputFailed ∧
      (callStash enc (some ok) s st v).store.entries = st.entries) ∧
    (ok = true → (callStash enc (some ok) s st v).error = none ∧
      (callStash enc (some ok) s st v).store.entries = st.entries ++ [(s.name, e)]) := by
  cases ok <;> simp [callStash, ho, hv, hu, he]

/-- Claim C7 amended witness: concrete failing sink. -/
theorem stash_output_sink_behavior_witness :
    ((⟨"k7w", true, true, true, none, false, true⟩ : StashState Int).isOpen = true ∧
     (⟨"k7w", true, true, true, none, false, true⟩ : StashState Int).value? = none ∧
     (⟨"k7w", true, true, true, none, false, true⟩ : StashState Int).isUsed = true ∧
     jsonInt.dumps 3 = some "3") ∧
    ((callStash jsonInt (some false)
        (⟨"k7w", true, true, true, none, false, true⟩ : StashState Int)
        ⟨true, true, []⟩ 3).sent = some (pyRepr "3") ∧
     (false = false → (callStash jsonInt (some false)
        (⟨"k7w", true, true, true, none, false, true⟩ : StashState Int)
        ⟨true, true, []⟩ 3).error = some CErr.outputFailed ∧
      (callStash jsonInt (some false)
        (⟨"k7w", true, true, true, none, false, true⟩ : StashState Int)
        ⟨true, true, []⟩ 3).store.entries = (⟨true, true, []⟩ : Store).entries) ∧
     (false = true → (callStash jsonInt (some false)
        (⟨"k7w", true, true, true, none, false, true⟩ : StashState Int)
        ⟨true, true, []⟩ 3).error = none ∧
      (callStash jsonInt (some false)
        (⟨"k7w", true, true, true, none, false, true⟩ : StashState Int)
        ⟨true, true, []⟩ 3).store.entries =
        (⟨true, true, []⟩ : Store).entries ++
          [((⟨"k7w", true, true, true, none, false, true⟩ : StashState Int).name, "3")])) :=
  ⟨⟨by decide, by decide, by decide, by decide⟩,
   stash_output_sink_behavior jsonInt false
     ⟨"k7w", true, true, true, none, false, true⟩ ⟨true, true, []⟩ 3 "3"
     (by decide) (by decide) (by decide) (by decide)⟩

/-- Claim C8: on an open miss FilePath handle, capturing the destination path
itself copies nothing and just sets the value to the destination, and
capturing a different source while the destination exists raises
FileExistsError with the file system unchanged (the destination is never
overwritten). -/
theorem filepath_idempotent_no_overwrite (s : FileState)
    (fs : List (String × String)) (src : String)
    (ho : s.isOpen = true) (hv : s.value? = none) (hu : s.isUsed = true) :
    fpCall s fs s.filename =
      (⟨s.name, s.filename, s.isOpen, s.isUsed, s.wasEmpty, some s.filename⟩, fs, none) ∧
    (src ≠ s.filename → fsExists fs s.filename = true →
      fpCall s fs src = (s, fs, some FErr.destExists)) := by
  constructor
  · simp [fpCall, ho, hv, hu]
  · intro hne hex
    simp [fpCall, ho, hv, hu, hne, hex]

/-- Claim C8 witness: concrete populated destination. -/
theorem filepath_idempotent_no_overwrite_witness :
    ((⟨"f", "stash/f", true, true, true, none⟩ : FileState).isOpen = true ∧
     (⟨"f", "stash/f", true, true, true, none⟩ : FileState).value? = none ∧
     (⟨"f", "stash/f", true, true, true, none⟩ : FileState).isUsed = true) ∧
    (fpCall ⟨"f", "stash/f", true, true, true, none⟩ [("stash/f", "data")] "stash/f" =
      (⟨"f", "stash/f", true, true, true, some "stash/f"⟩, [("stash/f", "data")], none) ∧
     ("other" ≠ "stash/f" → fsExists [("stash/f", "data")] "stash/f" = true →
      fpCall ⟨"f", "stash/f", true, true, true, none⟩ [("stash/f", "data")] "other" =
        (⟨"f", "stash/f", true, true, true, none⟩, [("stash/f", "data")],
         some FErr.destExists))) :=
  ⟨⟨by decide, by decide, by decide⟩,
   filepath_idempotent_no_overwrite ⟨"f", "stash/f", true, true, true, none⟩
     [("stash/f", "data")] "other" (by decide) (by decide) (by decide)⟩

/-- Claim C9 counterexample: in the concrete scenario the store file does not
contain the line count = 42; the stored record is the repr-quoted json
encoding, so the line reads count = (quote)42(quote). -/
theorem stash_count_scenario_line_cex :
    renderStore countScenario1.store.entries =
      "count = " ++ sqStr ++ "42" ++ sqStr ++ "\n\n" ∧
    ¬ ("count = 42" ∈ linesOf (renderStore countScenario1.store.entries)) ∧
    ("count = " ++ sqStr ++ "42" ++ sqStr) ∈
      linesOf (renderStore countScenario1.store.entries) := by decide

/-- Claim C9 as amended: with no prior store file, opening count gives
was_empty true; capturing 42 appends exactly one record for count holding the
json encoding of 42, and the file then contains the line
count = (quote)42(quote) followed by a blank line; reopening gives was_empty
false, value 42, and the guarded block is skipped. -/
theorem stash_count_scenario_amended :
    countScenario1.state.wasEmpty = true ∧
    countScenario1.bodyRan = true ∧
    countScenario1.err = none ∧
    countScenario1.store.entries = [("count", "42")] ∧
    renderStore countScenario1.store.entries =
      "count = " ++ sqStr ++ "42" ++ sqStr ++ "\n\n" ∧
    countScenario2.state.wasEmpty = false ∧
    valueAcc countScenario2.state = some 42 ∧
    countScenario2.bodyRan = false := by decide

/-- Claim C10: the bypass flag use_stash=False changes nothing about opening
— the directory is still created, the store is still loaded and a hit still
arms the skip and exposes the decoded value exactly as with the flag on (the
open results agree except for the is_used field itself) — while capture under
the flag records the value in memory and returns without touching the
store. -/
theorem stash_bypass_open_unaffected {V : Type} (enc : Encoder V) (nm : String)
    (st : Store) :
    ((enterStash enc (initStash nm false) st).1.name =
        (enterStash enc (initStash nm true) st).1.name ∧
     (enterStash enc (initStash nm false) st).1.wasEmpty =
        (enterStash enc (initStash nm true) st).1.wasEmpty ∧
     (enterStash enc (initStash nm false) st).1.isOpen =
        (enterStash enc (initStash nm true) st).1.isOpen ∧
     (enterStash enc (initStash nm false) st).1.value? =
        (enterStash enc (initStash nm true) st).1.value? ∧
     (enterStash enc (initStash nm false) st).1.armed =
        (enterStash enc (initStash nm true) st).1.armed ∧
     (enterStash enc (initStash nm false) st).2 =
        (enterStash enc (initStash nm true) st).2) ∧
    (enterStash enc (initStash nm false) st).2.dirExists = true ∧
    (∀ (output : Option Bool) (s : StashState V) (st' : Store) (v : V),
      s.isOpen = true → s.value? = none → s.isUsed = false →
      callStash enc output s st' v =
        ⟨⟨s.name, s.isUsed, s.wasEmpty, s.isOpen, some v, s.armed, s.lockHeld⟩,
         st', none, none⟩) := by
  have hsplit : ∀ u : Bool, enterStash enc (initStash nm u) st =
      (if st.fileExists then
        match lookupLast st.entries nm with
        | some b => (⟨nm, u, false, true, some (enc.loads b), true, true⟩ : StashState V)
        | none => ⟨nm, u, true, true, none, false, true⟩
       else ⟨nm, u, true, true, none, false, true⟩,
       ⟨true, st.fileExists, st.entries⟩) := by
    intro u
    cases hf : st.fileExists
    · simp [enterStash, checkStash, initStash, hf]
    · cases hl : lookupLast st.entries nm
      · simp [enterStash, checkStash, initStash, hf, hl]
      · simp [enterStash, checkStash, initStash, hf, hl]
  refine ⟨?_, ?_, ?_⟩
  · rw [hsplit true, hsplit false]
    cases hf : st.fileExists
    · simp
    · cases hl : lookupLast st.entries nm <;> simp
  · rw [hsplit false]
  · intro output s st' v ho hv hu
    simp [callStash, ho, hv, hu]

/-- Claim C10 witness: concrete bypass handle over a store that hits. -/
theorem stash_bypass_open_unaffected_witness :
    ((enterStash jsonInt (initStash "kA" false) ⟨true, true, [("kA", "8")]⟩).1.name =
        (enterStash jsonInt (initStash "kA" true) ⟨true, true, [("kA", "8")]⟩).1.name ∧
     (enterStash jsonInt (initStash "kA" false) ⟨true, true, [("kA", "8")]⟩).1.wasEmpty =
        (enterStash jsonInt (initStash "kA" true) ⟨true, true, [("kA", "8")]⟩).1.wasEmpty ∧
     (enterStash jsonInt (initStash "kA" false) ⟨true, true, [("kA", "8")]⟩).1.isOpen =
        (enterStash jsonInt (initStash "kA" true) ⟨true, true, [("kA", "8")]⟩).1.isOpen ∧
     (enterStash jsonInt (initStash "kA" false) ⟨true, true, [("kA", "8")]⟩).1.value? =
        (enterStash jsonInt (initStash "kA" true) ⟨true, true, [("kA", "8")]⟩).1.value? ∧
     (enterStash jsonInt (initStash "kA" false) ⟨true, true, [("kA", "8")]⟩).1.armed =
        (enterStash jsonInt (initStash "kA" true) ⟨true, true, [("kA", "8")]⟩).1.armed ∧
     (enterStash jsonInt (initStash "kA" false) ⟨true, true, [("kA", "8")]⟩).2 =
        (enterStash jsonInt (initStash "kA" true) ⟨true, true, [("kA", "8")]⟩).2) ∧
    (enterStash jsonInt (initStash "kA" false) ⟨true, true, [("kA", "8")]⟩).2.dirExists = true ∧
    (∀ (output : Option Bool) (s : StashState Int) (st' : Store) (v : Int),
      s.isOpen = true → s.value? = none → s.isUsed = false →
      callStash jsonInt output s st' v =
        ⟨⟨s.name, s.isUsed, s.wasEmpty, s.isOpen, some v, s.armed, s.lockHeld⟩,
         st', none, none⟩) :=
  stash_bypass_open_unaffected jsonInt "kA" ⟨true, true, [("kA", "8")]⟩

/-- Updating a thread changes it. -/
theorem updThr_same {n : Nat} (f : Fin n → TSt) (t : Fin n) (v : TSt) :
    updThr f t v t = v := by simp [updThr]

/-- Updating a thread leaves the others alone. -/
theorem updThr_other {n : Nat} (f : Fin n → TSt) (t u : Fin n) (v : TSt)
    (h : u ≠ t) : updThr f t v u = f u := by simp [updThr, h]

/-- One step of the concurrent system preserves the mutual-exclusion and
content invariants for a fresh name. -/
theorem cstep_preserves (nm : String) {n : Nat} (vals : Fin n → String)
    (s s' : CSys n) (hst : CStep nm vals s s')
    (hL : lockInv s) (hC : contentInv nm vals s) :
    lockInv s' ∧ contentInv nm vals s' := by
  cases hst with
  | acquire t s h1 h2 =>
    constructor
    · intro u hu
      by_cases hut : u = t
      · subst hut; rfl
      · simp only [updThr_other _ _ _ _ hut] at hu
        have hlk := hL u hu
        rw [h1] at hlk
        exact Option.noConfusion hlk
    · rcases hC with ⟨hlk, hcnt, hall⟩ | ⟨hlk, hcnt, t0, ht0, hothers⟩ |
        ⟨t0, hm, hp, hlk, hcnt, hothers⟩
      · refine Or.inr (Or.inl ⟨hlk, hcnt, t, ?_, ?_⟩)
        · simp only [updThr_same, openThread, hlk]
        · intro u hu
          simp only [updThr_other _ _ _ _ hu]
          exact hall u
      · exfalso
        have hop : (s.thr t0).phase = .opened ∨ (s.thr t0).phase = .captured :=
          Or.inl (by rw [ht0])
        have hlk0 := hL t0 hop
        rw [h1] at hlk0
        exact Option.noConfusion hlk0
      · have htt0 : t ≠ t0 := by
          intro heq
          subst heq
          rcases hp with hp | hp <;> rw [h2] at hp <;> exact Phase.noConfusion hp
        refine Or.inr (Or.inr ⟨t0, ?_, ?_, hlk, hcnt, ?_⟩)
        · simp only [updThr_other _ _ _ _ (Ne.symm htt0)]
          exact hm
        · simp only [updThr_other _ _ _ _ (Ne.symm htt0)]
          exact hp
        · intro u hu
          by_cases hut : u = t
          · subst hut
            simp [updThr_same, openThread, hlk]
          · simp only [updThr_other _ _ _ _ hut]
            exact hothers u hu
  | capture t s h1 h2 =>
    have hlt : s.lock = some t := hL t (Or.inl h1)
    constructor
    · intro u hu
      by_cases hut : u = t
      · subst hut; exact hlt
      · simp only [updThr_other _ _ _ _ hut] at hu
        exact hL u hu
    · rcases hC with ⟨hlk, hcnt, hall⟩ | ⟨hlk, hcnt, t0, ht0, hothers⟩ |
        ⟨t0, hm, hp, hlk, hcnt, hothers⟩
      · exfalso
        have hs := hall t
        rw [hs] at h1
        exact Phase.noConfusion h1
      · have htt0 : t = t0 := by
          by_contra hne
          have hs := hothers t hne
          rw [hs] at h1
          exact Phase.noConfusion h1
        subst htt0
        refine Or.inr (Or.inr ⟨t, ?_, ?_, ?_, ?_, ?_⟩)
        · simp [updThr_same]
        · simp [updThr_same]
        · exact lookupLast_append_self s.entries nm (vals t)
        · simp [countName_append, hcnt]
        · intro u hu
          simp [updThr_other _ _ _ _ hu, hothers u hu]
      · exfalso
        by_cases htt0 : t = t0
        · subst htt0
          rcases hp with hp | hp <;> rw [h1] at hp <;> exact Phase.noConfusion hp
        · have hs := (hothers t htt0).1
          rw [hs] at h2
          exact Bool.noConfusion h2
  | release t s h1 h2 =>
    constructor
    · intro u hu
      exfalso
      by_cases hut : u = t
      · subst hut
        simp only [updThr_same] at hu
        rcases hu with hu | hu <;> exact Phase.noConfusion hu
      · simp only [updThr_other _ _ _ _ hut] at hu
        have hlk := hL u hu
        rw [h1] at hlk
        exact hut (Option.some.inj hlk).symm
    · rcases hC with ⟨hlk, hcnt, hall⟩ | ⟨hlk, hcnt, t0, ht0, hothers⟩ |
        ⟨t0, hm, hp, hlk, hcnt, hothers⟩
      · exfalso
        have hs := hall t
        rcases h2 with h2 | ⟨h2, _⟩ <;> rw [hs] at h2 <;> exact Phase.noConfusion h2
      · exfalso
        by_cases htt0 : t = t0
        · subst htt0
          rcases h2 with h2 | ⟨_, h2⟩
          · rw [ht0] at h2; exact Phase.noConfusion h2
          · rw [ht0] at h2; exact Bool.noConfusion h2
        · have hs := hothers t htt0
          rcases h2 with h2 | ⟨h2, _⟩ <;> rw [hs] at h2 <;> exact Phase.noConfusion h2
      · by_cases htt0 : t = t0
        · subst htt0
          refine Or.inr (Or.inr ⟨t, ?_, ?_, hlk, hcnt, ?_⟩)
          · simp only [updThr_same]; exact hm
          · simp [updThr_same]
          · intro u hu
            simp only [updThr_other _ _ _ _ hu]
            exact hothers u hu
        · refine Or.inr (Or.inr ⟨t0, ?_, ?_, hlk, hcnt, ?_⟩)
          · simp only [updThr_other _ _ _ _ (Ne.symm htt0)]; exact hm
          · simp only [updThr_other _ _ _ _ (Ne.symm htt0)]; exact hp
          · intro u hu
            by_cases hut : u = t
            · subst hut
              obtain ⟨hmu, hpu, hsu⟩ := hothers u htt0
              simp only [updThr_same]
              refine ⟨hmu, by simp, fun _ => ?_⟩
              rcases h2 with h2 | ⟨h2, _⟩
              · exact absurd h2 hpu
              · exact hsu (Or.inl h2)
            · simp only [updThr_other _ _ _ _ hut]
              exact hothers u hu

/-- Every reachable state of the concurrent system over a fresh name
satisfies both invariants. -/
theorem creach_inv (nm : String) {n : Nat} (vals : Fin n → String)
    (st0 : List (String × String)) (s : CSys n)
    (hfresh : lookupLast st0 nm = none) (h : CReach nm vals st0 s) :
    lockInv s ∧ contentInv nm vals s := by
  induction h with
  | refl =>
    constructor
    · intro t ht
      rcases ht with ht | ht <;> exact Phase.noConfusion ht
    · exact Or.inl ⟨hfresh, countName_eq_zero_of_lookup_none _ _ hfresh, fun t => rfl⟩
  | tail hab hbc ih => exact cstep_preserves nm vals _ _ hbc ih.1 ih.2

/-- Claim C3: in every reachable state, at most one thread for the key is
inside its open/capture section (all other openers are still blocked before
acquire or already done), and when every thread has finished, exactly one of
them captured — the store holds exactly one entry for the name, namely the
winner's — while all others opened on a hit, saw the winner's value, and
never captured. -/
theorem stash_concurrent_single_writer (nm : String) (n : Nat)
    (vals : Fin n → String) (st0 : List (String × String)) (s : CSys n)
    (hfresh : lookupLast st0 nm = none) (hreach : CReach nm vals st0 s) :
    (∀ t u : Fin n,
      ((s.thr t).phase = .opened ∨ (s.thr t).phase = .captured) →
      ((s.thr u).phase = .opened ∨ (s.thr u).phase = .captured) → t = u) ∧
    ((∀ t, (s.thr t).phase = .done) → 0 < n →
      ∃ t0 : Fin n, (s.thr t0).missed = true ∧
        countName nm s.entries = 1 ∧
        lookupLast s.entries nm = some (vals t0) ∧
        ∀ u, u ≠ t0 → (s.thr u).missed = false ∧
          (s.thr u).seen = some (vals t0)) := by
  obtain ⟨hL, hC⟩ := creach_inv nm vals st0 s hfresh hreach
  constructor
  · intro t u ht hu
    have h1 := hL t ht
    have h2 := hL u hu
    rw [h1] at h2
    exact Option.some.inj h2
  · intro hdone hn
    rcases hC with ⟨_, _, hall⟩ | ⟨_, _, t0, ht0, _⟩ |
      ⟨t0, hm, hp, hlk, hcnt, hothers⟩
    · exfalso
      have hs := hall ⟨0, hn⟩
      have hd := hdone ⟨0, hn⟩
      rw [hs] at hd
      exact Phase.noConfusion hd
    · exfalso
      have hd := hdone t0
      rw [ht0] at hd
      exact Phase.noConfusion hd
    · refine ⟨t0, hm, hcnt, hlk, ?_⟩
      intro u hu
      obtain ⟨hmu, _, hseen⟩ := hothers u hu
      exact ⟨hmu, hseen (Or.inr (hdone u))⟩

/-- Claim C3 witness: a complete two-thread interleaving in which thread 0
wins the race and thread 1 then opens on a hit. -/
theorem stash_concurrent_single_writer_witness :
    (lookupLast ([] : List (String × String)) "k3" = none ∧
     CReach "k3" w3vals [] w3Final) ∧
    ((∀ t u : Fin 2,
        ((w3Final.thr t).phase = .opened ∨ (w3Final.thr t).phase = .captured) →
        ((w3Final.thr u).phase = .opened ∨ (w3Final.thr u).phase = .captured) →
        t = u) ∧
     ((∀ t, (w3Final.thr t).phase = .done) → 0 < 2 →
      ∃ t0 : Fin 2, (w3Final.thr t0).missed = true ∧
        countName "k3" w3Final.entries = 1 ∧
        lookupLast w3Final.entries "k3" = some (w3vals t0) ∧
        ∀ u, u ≠ t0 → (w3Final.thr u).missed = false ∧
          (w3Final.thr u).seen = some (w3vals t0))) := by
  have st1 : CStep "k3" w3vals (initSys 2 []) ⟨some 0, [], w3T1⟩ :=
    CStep.acquire 0 (initSys 2 []) rfl rfl
  have st2 : CStep "k3" w3vals ⟨some 0, [], w3T1⟩ ⟨some 0, w3E, w3T2⟩ :=
    CStep.capture 0 _ (by decide) (by decide)
  have st3 : CStep "k3" w3vals ⟨some 0, w3E, w3T2⟩ ⟨none, w3E, w3T3⟩ :=
    CStep.release 0 _ rfl (Or.inl (by decide))
  have st4 : CStep "k3" w3vals ⟨none, w3E, w3T3⟩ ⟨some 1, w3E, w3T4⟩ :=
    CStep.acquire 1 _ rfl (by decide)
  have st5 : CStep "k3" w3vals ⟨some 1, w3E, w3T4⟩ w3Final :=
    CStep.release 1 _ rfl (Or.inr ⟨by decide, by decide⟩)
  have htr : CReach "k3" w3vals [] w3Final :=
    Relation.ReflTransGen.head st1 (Relation.ReflTransGen.head st2
      (Relation.ReflTransGen.head st3 (Relation.ReflTransGen.head st4
        (Relation.ReflTransGen.head st5 Relation.ReflTransGen.refl))))
  exact ⟨⟨by decide, htr⟩,
    stash_concurrent_single_writer "k3" 2 w3vals [] w3Final (by decide) htr⟩
